import Mathlib

/-!
Verification development for the binance-crypto-daily scripts.

The pipeline in main-futures.py, main_futures.py and main_spot.py is
embedded shallowly: prices and indicator values are rationals, a Python
float that may be NaN is an Option (none models NaN, following IEEE
semantics where every comparison against NaN is false), a Python None is
likewise none at the Option layer, and fallible per-instrument processing
is modelled with Except.  HTTP fetching and the numerical formulas of the
ta library are external collaborators; they enter only as parameters.
-/

namespace BinanceDaily

/-- A Python float that may be NaN: none models NaN. -/
abbrev FVal := Option ℚ

/-- Strict greater-than on possibly-NaN floats: any comparison with NaN is false. -/
def fgt (a b : FVal) : Bool :=
  match a, b with
  | some x, some y => decide (y < x)
  | _, _ => false

/-- Strict less-than on possibly-NaN floats: any comparison with NaN is false. -/
def flt (a b : FVal) : Bool :=
  match a, b with
  | some x, some y => decide (x < y)
  | _, _ => false

/-- Non-strict greater-or-equal on possibly-NaN floats. -/
def fge (a b : FVal) : Bool :=
  match a, b with
  | some x, some y => decide (y ≤ x)
  | _, _ => false

/-- Multiply a possibly-NaN float by a scalar; NaN is absorbing. -/
def fmul (a : FVal) (c : ℚ) : FVal := a.map (fun x => x * c)

/-- Python `x or d` on a float x that may be NaN: 0.0 is falsy (gives d),
NaN is truthy (gives NaN), every other number is truthy (gives itself). -/
def pyOr (a : FVal) (d : ℚ) : FVal :=
  match a with
  | none => none
  | some x => if x = 0 then some d else some x

/-- The last row of an indicator dataframe as read by the futures scripts:
close and volume come straight from the klines and are plain numbers,
indicator columns may be NaN. -/
structure FutRow where
  close : ℚ
  volume : ℚ
  ema9 : FVal
  ema21 : FVal
  ema50 : FVal
  rsi : FVal
  adx : FVal
  macd_line : FVal
  macd_signal : FVal
  macd_hist : FVal
  vol_sma20 : FVal
  atr14 : FVal

/-- long_cond of evaluate_signal in main-futures.py lines 139-147
(identical in main_futures.py lines 147-155), evaluated after the NaN and
None guards, so funding_rate and oi_change are plain numbers here. -/
def futures_long_cond (last_row : FutRow) (funding_rate oi_change : ℚ) : Bool :=
  fgt last_row.ema9 last_row.ema21 && fgt last_row.ema21 last_row.ema50
    && flt (some 45) last_row.rsi && flt last_row.rsi (some 65)
    && fgt last_row.adx (some 25)
    && fgt last_row.macd_line last_row.macd_signal
    && decide (0 < funding_rate) && decide (funding_rate < 0.02)
    && decide (0 < oi_change)
    && fgt (some last_row.volume) (pyOr last_row.vol_sma20 0)

/-- short_cond of evaluate_signal in main-futures.py lines 150-158
(identical in main_futures.py lines 156-164). -/
def futures_short_cond (last_row : FutRow) (funding_rate oi_change : ℚ) : Bool :=
  flt last_row.ema9 last_row.ema21 && flt last_row.ema21 last_row.ema50
    && flt (some 35) last_row.rsi && flt last_row.rsi (some 55)
    && fgt last_row.adx (some 25)
    && flt last_row.macd_line last_row.macd_signal
    && decide (-0.02 < funding_rate) && decide (funding_rate < 0)
    && decide (0 < oi_change)
    && fgt (some last_row.volume) (pyOr last_row.vol_sma20 0)

/-- evaluate_signal of main-futures.py lines 126-164; main_futures.py lines
141-169 is the same function with last_row.get instead of bracket access,
which coincides on a row whose fields are all present (absent and NaN both
map to none here). -/
def evaluate_signal (last_row : FutRow) (funding_rate oi_change : Option ℚ) : String :=
  if last_row.ema9.isNone || last_row.ema21.isNone || last_row.ema50.isNone
      || last_row.rsi.isNone || last_row.adx.isNone || last_row.macd_line.isNone
      || last_row.macd_signal.isNone || last_row.vol_sma20.isNone
      || last_row.atr14.isNone then "-"
  else
    match funding_rate, oi_change with
    | some fr, some oi =>
        if futures_long_cond last_row fr oi then "LONG"
        else if futures_short_cond last_row fr oi then "SHORT"
        else "-"
    | _, _ => "-"

/-- calc_entry_stop_target of main-futures.py lines 167-183 and
main_futures.py lines 173-187.  atr14 is none when pd.isna holds. -/
def calc_entry_stop_target (signal : String) (last_price : ℚ) (atr14 : FVal) :
    ℚ × Option ℚ × Option ℚ :=
  match atr14 with
  | none => (last_price, none, none)
  | some a =>
    if a ≤ 0 then (last_price, none, none)
    else if signal = "LONG" then
      (last_price, some (last_price - 1.5 * a), some (last_price + 2.0 * a))
    else if signal = "SHORT" then
      (last_price, some (last_price + 1.5 * a), some (last_price - 2.0 * a))
    else (last_price, none, none)

/-- Configuration defaults of main_spot.py lines 27-30 (env defaults). -/
def MIN_RR : ℚ := 1.2

/-- Default of MIN_ADX in main_spot.py line 28. -/
def MIN_ADX : ℚ := 15

/-- Default of ATR_STOP in main_spot.py line 29. -/
def ATR_STOP_MULT : ℚ := 1.5

/-- Default of ATR_TP in main_spot.py line 30. -/
def ATR_TP_MULT : ℚ := 2.5

/-- The last row of the indicator dataframe of main_spot.py: close and
volume are plain klines numbers, every derived column may be NaN. -/
structure SpotRow where
  close : ℚ
  volume : ℚ
  ema9 : FVal
  ema21 : FVal
  ema50 : FVal
  ema200 : FVal
  rsi : FVal
  adx : FVal
  macd_line : FVal
  macd_signal : FVal
  macd_hist : FVal
  sma20 : FVal
  vol_sma20 : FVal
  atr14 : FVal
  atr_pct : FVal
  cmf : FVal
  bb_high : FVal
  bb_low : FVal
  bb_width : FVal
  obv : FVal
  obv_slope : FVal

/-- long_condition of main_spot.py lines 164-176. -/
def long_condition (last : SpotRow) : Bool :=
  if last.ema9.isNone || last.ema21.isNone || last.ema50.isNone || last.rsi.isNone
      || last.adx.isNone || last.macd_line.isNone || last.macd_signal.isNone
      || last.vol_sma20.isNone || last.cmf.isNone then false
  else
    fgt last.ema9 (fmul last.ema21 0.995)
      && fgt last.ema21 (fmul last.ema50 0.995)
      && flt (some 42) last.rsi && flt last.rsi (some 68)
      && fge last.adx (some MIN_ADX)
      && fgt last.macd_line last.macd_signal
      && fgt (some last.volume) (fmul (pyOr last.vol_sma20 1) 0.8)
      && fgt last.cmf (some (-0.10))

/-- short_condition of main_spot.py lines 179-191. -/
def short_condition (last : SpotRow) : Bool :=
  if last.ema9.isNone || last.ema21.isNone || last.ema50.isNone || last.rsi.isNone
      || last.adx.isNone || last.macd_line.isNone || last.macd_signal.isNone
      || last.vol_sma20.isNone || last.cmf.isNone then false
  else
    flt last.ema9 (fmul last.ema21 1.005)
      && flt last.ema21 (fmul last.ema50 1.005)
      && flt (some 32) last.rsi && flt last.rsi (some 58)
      && fge last.adx (some MIN_ADX)
      && flt last.macd_line last.macd_signal
      && fgt (some last.volume) (fmul (pyOr last.vol_sma20 1) 0.8)
      && flt last.cmf (some 0.10)

/-- One rule step of compute_score_and_badges: when the guard holds, add the
weight to the running score and append the badge name to the running tier
list; otherwise leave the state untouched. -/
def addRule (c : Bool) (w : ℤ) (name : String) (p : ℤ × List String) : ℤ × List String :=
  if c then (p.1 + w, p.2 ++ [name]) else p

/-- The score accumulation of compute_score_and_badges in main_spot.py lines
197-231, returning the final score together with the strong and moderate
badge lists in evaluation order. -/
def score_parts (last : SpotRow) (side : String) : ℤ × List String × List String :=
  let s0 : ℤ × List String := (0, [])
  let s1 :=
    if side = "LONG" then
      addRule (fgt last.obv_slope (some 0)) 2 "OBV ↑"
        (addRule (fgt last.ema50 last.ema200) 3 "Golden Cross" s0)
    else
      addRule (flt last.obv_slope (some 0)) 2 "OBV ↓"
        (addRule (flt last.ema50 last.ema200) 3 "Death Cross" s0)
  let s2 := addRule (flt last.bb_width (some 0.06) && flt last.atr_pct (some 3)) 2
    "Sıkışma (BB+ATR)" s1
  let m0 : ℤ × List String := (s2.1, [])
  let m1 := addRule (decide (side = "LONG") && fgt last.macd_line last.macd_signal) 1
    "MACD Up" m0
  let m2 := addRule (decide (side = "SHORT") && flt last.macd_line last.macd_signal) 1
    "MACD Down" m1
  let m3 := addRule (decide (side = "LONG") && flt (some 45) last.rsi && flt last.rsi (some 60)) 1
    "RSI Zone" m2
  let m4 := addRule (decide (side = "SHORT") && flt (some 40) last.rsi && flt last.rsi (some 55)) 1
    "RSI Zone" m3
  let m5 := addRule (decide (side = "LONG") && fgt last.cmf (some 0)) 1 "CMF+" m4
  let m6 := addRule (decide (side = "SHORT") && flt last.cmf (some 0)) 1 "CMF-" m5
  let m7 := addRule (fgt (some last.volume) (fmul (pyOr last.vol_sma20 1) 1.3)) 1
    "Volume Spike" m6
  (m7.1, s2.2, m7.2)

/-- The badge string assembly of main_spot.py lines 233-236: the joined
strong entries (starred) followed by the joined moderate entries (dotted),
empty tiers filtered out. -/
def renderBadges (strong moderate : List String) : String :=
  String.intercalate ", "
    (List.filter (fun s => !s.isEmpty)
      [if strong.isEmpty then "" else
        String.intercalate ", " (strong.map (fun s => "⭐ " ++ s)),
       if moderate.isEmpty then "" else
        String.intercalate ", " (moderate.map (fun s => "• " ++ s))])

/-- compute_score_and_badges of main_spot.py lines 197-237. -/
def compute_score_and_badges (last : SpotRow) (side : String) : ℤ × String :=
  let p := score_parts last side
  (p.1, renderBadges p.2.1 p.2.2)

/-- calc_levels of main_spot.py lines 243-261.  The Python guard
`stop_pct and stop_pct > 0` on a real number is equivalent to 0 < stop_pct.
The entry price must be nonzero for the percentage divisions; main only
feeds rows with a positive close (a zero close would raise in Python and be
swallowed by the per-symbol handler). -/
def calc_levels (last : SpotRow) (side : String) :
    ℚ × Option ℚ × Option ℚ × Option ℚ × Option ℚ × Option ℚ :=
  let entry := last.close
  match last.atr14 with
  | none => (entry, none, none, none, none, none)
  | some atr =>
    if atr ≤ 0 then (entry, none, none, none, none, none)
    else if side = "LONG" then
      let stop := entry - ATR_STOP_MULT * atr
      let tp := entry + ATR_TP_MULT * atr
      let stop_pct := (entry - stop) / entry * 100
      let tp_pct := (tp - entry) / entry * 100
      let rr := if 0 < stop_pct then some (tp_pct / stop_pct) else none
      (entry, some stop, some tp, some stop_pct, some tp_pct, rr)
    else
      let stop := entry + ATR_STOP_MULT * atr
      let tp := entry - ATR_TP_MULT * atr
      let stop_pct := (stop - entry) / entry * 100
      let tp_pct := (entry - tp) / entry * 100
      let rr := if 0 < stop_pct then some (tp_pct / stop_pct) else none
      (entry, some stop, some tp, some stop_pct, some tp_pct, rr)

/-- A report row appended by main of main-futures.py lines 316-330 (same
shape in main_futures.py lines 242-244): funding rate and OI change have
already been defaulted to 0.0 when missing, so they are plain numbers. -/
structure FutOutRow where
  symbol : String
  signal : String
  entry : ℚ
  stop : Option ℚ
  target : Option ℚ
  last_price : ℚ
  funding_rate : ℚ
  oi_change : ℚ
  rsi : ℚ
  adx : ℚ
  macd_hist : ℚ

/-- The rows.append dictionary construction of main-futures.py lines
316-330: a missing funding rate or OI change is replaced by 0.0. -/
def mkFutRow (symbol signal : String) (entry : ℚ) (stop target : Option ℚ)
    (last_price : ℚ) (funding_rate oi_change : Option ℚ) (rsi adx macd_hist : ℚ) :
    FutOutRow :=
  { symbol := symbol, signal := signal, entry := entry, stop := stop,
    target := target, last_price := last_price,
    funding_rate := funding_rate.getD 0, oi_change := oi_change.getD 0,
    rsi := rsi, adx := adx, macd_hist := macd_hist }

/-- Python tuple comparison on the (primary, secondary) sort keys used by
both scripts: lexicographic on an integer first component and a rational
second component. -/
def keyLe (a b : ℤ × ℚ) : Bool :=
  decide (a.1 < b.1 ∨ (a.1 = b.1 ∧ a.2 ≤ b.2))

/-- Python sorted with a key function is a stable merge sort; List.mergeSort
with the key comparison models it. -/
def sortRows {ρ : Type} (key : ρ → ℤ × ℚ) (rows : List ρ) : List ρ :=
  rows.mergeSort (fun a b => keyLe (key a) (key b))

/-- The sort key of main-futures.py lines 339-347: LONG first, then SHORT,
then the rest, ties broken by absolute OI change descending. -/
def futuresSortKey (r : FutOutRow) : ℤ × ℚ :=
  ((if r.signal = "LONG" then 0 else if r.signal = "SHORT" then 1 else 2), -|r.oi_change|)

/-- rows_sorted of main-futures.py lines 339-347 and main_futures.py line 249. -/
def rows_sorted (rows : List FutOutRow) : List FutOutRow :=
  sortRows futuresSortKey rows

/-- A dashboard row of main_spot.py lines 380-397. -/
structure SpotOutRow where
  symbol : String
  side : String
  close : ℚ
  score : ℤ
  entry : ℚ
  stop : Option ℚ
  tp : Option ℚ
  stop_pct : Option ℚ
  tp_pct : Option ℚ
  rr : Option ℚ
  rsi : Option ℚ
  adx : Option ℚ
  atr_pct : Option ℚ
  vol_ratio : ℚ
  cmf : Option ℚ
  badges : String

/-- The sort key of main_spot.py line 403: score descending, then
risk/reward (defaulted to 0 when missing) descending. -/
def spotSortKey (r : SpotOutRow) : ℤ × ℚ :=
  (-r.score, -(r.rr.getD 0))

/-- rows_sorted of main_spot.py line 403. -/
def spot_rows_sorted (rows : List SpotOutRow) : List SpotOutRow :=
  sortRows spotSortKey rows

/-- One iteration of the per-symbol loop of main (main-futures.py lines
290-336, main_futures.py lines 230-248, main_spot.py lines 352-401), with
the try block abstracted as a step returning either rows or an exception:
the except handler turns any exception into no contribution. -/
def runBody {Row : Type} (step : String → Except String (List Row)) (sym : String) :
    List Row :=
  match step sym with
  | Except.ok rs => rs
  | Except.error _ => []

/-- The whole batch loop: the concatenation of the per-symbol contributions,
in symbol order. -/
def mainRows {Row : Type} (step : String → Except String (List Row))
    (symbols : List String) : List Row :=
  symbols.flatMap (runBody step)

/-- The ta library indicator constructors used by compute_indicators; they
are external collaborators of the scripts (standard indicator formulas) and
enter the model as parameters.  Each takes the window and the relevant
klines columns and returns the derived column. -/
structure TaLib where
  ema : ℕ → List ℚ → List FVal
  rsi : ℕ → List ℚ → List FVal
  adx : ℕ → List ℚ → List ℚ → List ℚ → List FVal
  macdLine : List ℚ → List FVal
  macdSignal : List ℚ → List FVal
  macdDiff : List ℚ → List FVal
  atr : ℕ → List ℚ → List ℚ → List ℚ → List FVal

/-- pandas rolling(w).mean(): NaN until w values are available, then the
window average. -/
def rollingMean (w : ℕ) (xs : List ℚ) : List FVal :=
  (List.range xs.length).map (fun i =>
    if i + 1 < w then none else some (((xs.take (i + 1)).drop (i + 1 - w)).sum / w))

/-- A klines dataframe as used by the futures scripts: the five parsed base
columns always exist; each derived indicator column exists only once
compute_indicators has added it (none means the column is absent, which is
distinct from a present column holding NaN entries). -/
structure DataFrame where
  open_price : List ℚ
  high : List ℚ
  low : List ℚ
  close : List ℚ
  volume : List ℚ
  ema9 : Option (List FVal)
  ema21 : Option (List FVal)
  ema50 : Option (List FVal)
  rsi : Option (List FVal)
  adx : Option (List FVal)
  macd_line : Option (List FVal)
  macd_signal : Option (List FVal)
  macd_hist : Option (List FVal)
  vol_sma20 : Option (List FVal)
  atr14 : Option (List FVal)

/-- compute_indicators of main-futures.py lines 86-123 and main_futures.py
lines 122-137: a frame shorter than 60 rows is returned unchanged,
otherwise every indicator column is added. -/
def compute_indicators (lib : TaLib) (df : DataFrame) : DataFrame :=
  if df.close.length < 60 then df
  else
    { df with
      ema9 := some (lib.ema 9 df.close),
      ema21 := some (lib.ema 21 df.close),
      ema50 := some (lib.ema 50 df.close),
      rsi := some (lib.rsi 14 df.close),
      adx := some (lib.adx 14 df.high df.low df.close),
      macd_line := some (lib.macdLine df.close),
      macd_signal := some (lib.macdSignal df.close),
      macd_hist := some (lib.macdDiff df.close),
      vol_sma20 := some (rollingMean 20 df.volume),
      atr14 := some (lib.atr 14 df.high df.low df.close) }

/-- Reading the last entry of a possibly-absent column the way
last_row.get does: an absent column and a NaN entry both read as none. -/
def colLast (c : Option (List FVal)) : FVal :=
  (c.bind List.getLast?).join

/-- df.iloc[-1] viewed through the row shape the classifier reads. -/
def lastRowOf (df : DataFrame) : FutRow :=
  { close := df.close.getLast?.getD 0,
    volume := df.volume.getLast?.getD 0,
    ema9 := colLast df.ema9,
    ema21 := colLast df.ema21,
    ema50 := colLast df.ema50,
    rsi := colLast df.rsi,
    adx := colLast df.adx,
    macd_line := colLast df.macd_line,
    macd_signal := colLast df.macd_signal,
    macd_hist := colLast df.macd_hist,
    vol_sma20 := colLast df.vol_sma20,
    atr14 := colLast df.atr14 }

/-- A concrete trivial instantiation of the ta library, used only to
evaluate the model on concrete inputs. -/
def trivLib : TaLib :=
  { ema := fun _ _ => [], rsi := fun _ _ => [], adx := fun _ _ _ _ => [],
    macdLine := fun _ => [], macdSignal := fun _ => [], macdDiff := fun _ => [],
    atr := fun _ _ _ _ => [] }

/-- A one-bar raw klines frame: far shorter than the 60-bar minimum, with no
indicator columns, exactly as get_klines returns it. -/
def shortDF : DataFrame :=
  { open_price := [1], high := [1], low := [1], close := [1], volume := [1],
    ema9 := none, ema21 := none, ema50 := none, rsi := none, adx := none,
    macd_line := none, macd_signal := none, macd_hist := none,
    vol_sma20 := none, atr14 := none }

/-- Rendering of an integer number of d-th decimals as a fixed-precision
decimal string. -/
def decimalString (scaled : ℤ) (d : ℕ) : String :=
  let sign := if scaled < 0 then "-" else ""
  let n := scaled.natAbs
  let intPart := toString (n / 10 ^ d)
  let fracRaw := toString (n % 10 ^ d)
  let frac := String.mk (List.replicate (d - fracRaw.length) '0') ++ fracRaw
  if d = 0 then sign ++ intPart else sign ++ intPart ++ "." ++ frac

/-- Fixed-precision decimal rendering, the model of a Python format spec
like .5f on a value the scripts print. -/
def fixedDecimal (x : ℚ) (d : ℕ) : String :=
  decimalString (round (x * (10 ^ d : ℚ))) d

/-- fmt of generate_html_report in main-futures.py lines 259-260: None
renders as the dash, a number renders at the given precision (the Python
default precision is 6). -/
def fmt (x : Option ℚ) (digits : ℕ) : String :=
  match x with
  | some v => fixedDecimal v digits
  | none => "-"

/-- The signal cell text of main-futures.py lines 246-257. -/
def sigText (signal : String) : String :=
  if signal = "LONG" then "✅ LONG"
  else if signal = "SHORT" then "❌ SHORT"
  else "• NEUTRAL"

/-- The cell contents of one table row of generate_html_report in
main-futures.py lines 262-274: entry, stop, target and last go through fmt,
while funding rate, OI change, RSI, ADX and MACD histogram are formatted
directly with fixed-precision format specs and no None check. -/
def generate_html_report_row (r : FutOutRow) : List String :=
  [r.symbol, sigText r.signal,
   fmt (some r.entry) 6, fmt r.stop 6, fmt r.target 6, fmt (some r.last_price) 6,
   fixedDecimal r.funding_rate 5, fixedDecimal r.oi_change 2,
   fixedDecimal r.rsi 2, fixedDecimal r.adx 2, fixedDecimal r.macd_hist 4]

/-- A concrete step function used to evaluate the batch model: the symbol
BAD fails with an exception, every other symbol contributes itself. -/
def demoStep : String → Except String (List String) :=
  fun t => if t = "BAD" then Except.error "boom" else Except.ok [t]

/-- A concrete row used to evaluate calc_levels: close 100, ATR 2, all
derived columns otherwise NaN. -/
def demoSpotRow : SpotRow :=
  { close := 100, volume := 0, ema9 := none, ema21 := none, ema50 := none,
    ema200 := none, rsi := none, adx := none, macd_line := none,
    macd_signal := none, macd_hist := none, sma20 := none, vol_sma20 := none,
    atr14 := some 2, atr_pct := none, cmf := none, bb_high := none,
    bb_low := none, bb_width := none, obv := none, obv_slope := none }

/-- A strict comparison and its mirror image never both hold, NaN included. -/
theorem fgt_flt_asymm (a b : FVal) (h1 : fgt a b = true) (h2 : flt a b = true) :
    False := by
  cases a <;> cases b <;> simp [fgt, flt] at h1 h2
  exact absurd h2 (lt_asymm h1)

/-- C3: for every last price and every signal, calc_entry_stop_target
returns entry equal to the price with stop and target undefined when the
ATR is NaN or nonpositive; for a positive ATR and signal LONG it returns
stop = price minus 1.5 ATR and target = price plus 2.0 ATR, for SHORT the
mirror image; in particular LONG at price 100 with ATR 2 gives
(100, 97, 104) and SHORT gives (100, 103, 96). -/
theorem calc_entry_stop_target_spec (p a : ℚ) (sig : String) :
    calc_entry_stop_target sig p none = (p, none, none) ∧
    (a ≤ 0 → calc_entry_stop_target sig p (some a) = (p, none, none)) ∧
    (0 < a → calc_entry_stop_target "LONG" p (some a)
      = (p, some (p - 1.5 * a), some (p + 2.0 * a))) ∧
    (0 < a → calc_entry_stop_target "SHORT" p (some a)
      = (p, some (p + 1.5 * a), some (p - 2.0 * a))) ∧
    calc_entry_stop_target "LONG" 100 (some 2) = (100, some 97, some 104) ∧
    calc_entry_stop_target "SHORT" 100 (some 2) = (100, some 103, some 96) := by
  refine ⟨rfl, ?_, ?_, ?_, ?_, ?_⟩
  · intro h
    simp [calc_entry_stop_target, h]
  · intro h
    simp [calc_entry_stop_target, not_le.mpr h]
  · intro h
    simp [calc_entry_stop_target, not_le.mpr h]
  · norm_num [calc_entry_stop_target]
  · have hs : ("SHORT" : String) ≠ "LONG" := by decide
    norm_num [calc_entry_stop_target, hs]

/-- Witness for C3 at price 100, ATR 2, signal LONG. -/
theorem calc_entry_stop_target_spec_witness :
    (0 : ℚ) < 2 ∧ calc_entry_stop_target "LONG" 100 (some 2) = (100, some 97, some 104) := by
  constructor
  · norm_num
  · have h := (calc_entry_stop_target_spec 100 2 "LONG").2.2.1 (by norm_num)
    rw [h]
    norm_num

/-- C10: even with a defined strictly positive ATR, a signal that is
neither LONG nor SHORT gets entry = last price and undefined stop and
target from calc_entry_stop_target. -/
theorem calc_entry_stop_target_neutral (p a : ℚ) (sig : String) (ha : 0 < a)
    (h1 : sig ≠ "LONG") (h2 : sig ≠ "SHORT") :
    calc_entry_stop_target sig p (some a) = (p, none, none) := by
  simp [calc_entry_stop_target, not_le.mpr ha, h1, h2]

/-- Witness for C10 at the neutral signal with price 100 and ATR 2. -/
theorem calc_entry_stop_target_neutral_witness :
    calc_entry_stop_target "-" 100 (some 2) = (100, none, none) :=
  calc_entry_stop_target_neutral 100 2 "-" (by norm_num) (by decide) (by decide)

/-- C4: whenever any needed indicator field of the row is undefined, or the
funding rate or OI change is absent, evaluate_signal returns the neutral
result; being a total function of the embedded row it raises nothing, and
an undefined field never counts as a satisfied condition. -/
theorem evaluate_signal_undefined_neutral (r : FutRow) (fr oi : Option ℚ)
    (h : r.ema9 = none ∨ r.ema21 = none ∨ r.ema50 = none ∨ r.rsi = none ∨
      r.adx = none ∨ r.macd_line = none ∨ r.macd_signal = none ∨
      r.vol_sma20 = none ∨ r.atr14 = none ∨ fr = none ∨ oi = none) :
    evaluate_signal r fr oi = "-" := by
  rcases h with h|h|h|h|h|h|h|h|h|h|h
  · simp [evaluate_signal, h]
  · simp [evaluate_signal, h]
  · simp [evaluate_signal, h]
  · simp [evaluate_signal, h]
  · simp [evaluate_signal, h]
  · simp [evaluate_signal, h]
  · simp [evaluate_signal, h]
  · simp [evaluate_signal, h]
  · simp [evaluate_signal, h]
  · unfold evaluate_signal
    rw [h]
    split
    · rfl
    · rcases oi with _ | v <;> rfl
  · unfold evaluate_signal
    rw [h]
    split
    · rfl
    · rcases fr with _ | v <;> rfl

/-- Witness for C4: a row whose ema9 is NaN is classified neutral. -/
theorem evaluate_signal_undefined_neutral_witness :
    evaluate_signal
      ⟨0, 0, none, none, none, none, none, none, none, none, none, none⟩
      (some 1) (some 1) = "-" :=
  evaluate_signal_undefined_neutral _ _ _ (Or.inl rfl)

/-- C1: the LONG and SHORT predicates are mutually exclusive on any single
row: the futures long and short conditions never both hold (for any funding
rate and OI change), evaluate_signal never equals LONG and SHORT at once,
and the soft-mode long_condition and short_condition of the spot dashboard
never both return true. -/
theorem long_short_mutually_exclusive (r : FutRow) (fr oi : ℚ)
    (fro oio : Option ℚ) (l : SpotRow) :
    (futures_long_cond r fr oi && futures_short_cond r fr oi) = false ∧
    (decide (evaluate_signal r fro oio = "LONG")
      && decide (evaluate_signal r fro oio = "SHORT")) = false ∧
    (long_condition l && short_condition l) = false := by
  refine ⟨?_, ?_, ?_⟩
  · cases hl : futures_long_cond r fr oi
    · simp
    · simp only [Bool.true_and]
      unfold futures_long_cond at hl
      simp only [Bool.and_eq_true, decide_eq_true_eq] at hl
      have hfr : 0 < fr := hl.1.1.1.2
      rw [Bool.eq_false_iff]
      intro hs
      unfold futures_short_cond at hs
      simp only [Bool.and_eq_true, decide_eq_true_eq] at hs
      have hneg : fr < 0 := hs.1.1.2
      exact absurd hneg (lt_asymm hfr)
  · by_cases h : evaluate_signal r fro oio = "LONG"
    · rw [h]
      decide
    · simp [h]
  · cases hl : long_condition l
    · simp
    · simp only [Bool.true_and]
      rw [Bool.eq_false_iff]
      intro hs
      unfold long_condition at hl
      unfold short_condition at hs
      split at hl
      · exact absurd hl (by simp)
      · split at hs
        · exact absurd hs (by simp)
        · simp only [Bool.and_eq_true] at hl hs
          exact fgt_flt_asymm _ _ hl.1.1.2 hs.1.1.2

/-- The tuple comparison is transitive. -/
theorem keyLe_trans (a b c : ℤ × ℚ) (hab : keyLe a b = true) (hbc : keyLe b c = true) :
    keyLe a c = true := by
  simp only [keyLe, decide_eq_true_eq] at hab hbc ⊢
  rcases hab with h | ⟨h1, h2⟩ <;> rcases hbc with h' | ⟨h1', h2'⟩
  · exact Or.inl (h.trans h')
  · exact Or.inl (h1' ▸ h)
  · exact Or.inl (h1 ▸ h')
  · exact Or.inr ⟨h1.trans h1', h2.trans h2'⟩

/-- The tuple comparison is total. -/
theorem keyLe_total (a b : ℤ × ℚ) : (keyLe a b || keyLe b a) = true := by
  simp only [keyLe, Bool.or_eq_true, decide_eq_true_eq]
  rcases lt_trichotomy a.1 b.1 with h | h | h
  · exact Or.inl (Or.inl h)
  · rcases le_total a.2 b.2 with h2 | h2
    · exact Or.inl (Or.inr ⟨h, h2⟩)
    · exact Or.inr (Or.inr ⟨h.symm, h2⟩)
  · exact Or.inr (Or.inl h)

/-- The modelled sort is a permutation of its input. -/
theorem sortRows_perm {ρ : Type} (key : ρ → ℤ × ℚ) (rows : List ρ) :
    (sortRows key rows).Perm rows :=
  List.mergeSort_perm rows _

/-- The modelled sort orders its output by the key comparison. -/
theorem sortRows_sorted {ρ : Type} (key : ρ → ℤ × ℚ) (rows : List ρ) :
    (sortRows key rows).Pairwise (fun a b => keyLe (key a) (key b) = true) := by
  unfold sortRows
  exact @List.sorted_mergeSort ρ (fun a b => keyLe (key a) (key b))
    (fun a b c hab hbc => keyLe_trans _ _ _ hab hbc)
    (fun a b => keyLe_total (key a) (key b)) rows

/-- The modelled sort is stable: the subsequence of rows at any fixed key
value is exactly the same subsequence, in the same order, as in the input. -/
theorem sortRows_stable {ρ : Type} (key : ρ → ℤ × ℚ) (rows : List ρ) (k : ℤ × ℚ) :
    (sortRows key rows).filter (fun r => decide (key r = k))
      = rows.filter (fun r => decide (key r = k)) := by
  have hrefl : keyLe k k = true := by
    simp [keyLe]
  have hpw : (rows.filter (fun r => decide (key r = k))).Pairwise
      (fun a b => keyLe (key a) (key b) = true) := by
    refine List.pairwise_of_forall_mem_list ?_
    intro x hx y hy
    have hkx : key x = k := by
      simpa using (List.mem_filter.mp hx).2
    have hky : key y = k := by
      simpa using (List.mem_filter.mp hy).2
    rw [hkx, hky]
    exact hrefl
  have hsub : (rows.filter (fun r => decide (key r = k))).Sublist (sortRows key rows) := by
    exact @List.sublist_mergeSort ρ (fun a b => keyLe (key a) (key b)) rows
      (fun a b c hab hbc => keyLe_trans _ _ _ hab hbc)
      (fun a b => keyLe_total (key a) (key b)) _ hpw (List.filter_sublist rows)
  have hsub2 : (rows.filter (fun r => decide (key r = k))).Sublist
      ((sortRows key rows).filter (fun r => decide (key r = k))) := by
    have h := hsub.filter (fun r => decide (key r = k))
    simpa [List.filter_filter] using h
  have hlen : ((sortRows key rows).filter (fun r => decide (key r = k))).length
      = (rows.filter (fun r => decide (key r = k))).length :=
    ((sortRows_perm key rows).filter _).length_eq
  exact (hsub2.eq_of_length hlen.symm).symm

/-- C5: both ranking steps order the report rows by their sort key (signal
priority LONG before SHORT before the rest with absolute OI change
descending as tie break for the futures report; score descending with
risk/reward descending as tie break for the dashboard), are permutations of
their input, and are stable: rows at any fixed key value keep their
relative input order. -/
theorem ranking_sorted_and_stable (rows : List FutOutRow) (srows : List SpotOutRow) :
    (rows_sorted rows).Pairwise
      (fun a b => keyLe (futuresSortKey a) (futuresSortKey b) = true) ∧
    (rows_sorted rows).Perm rows ∧
    (∀ k : ℤ × ℚ, (rows_sorted rows).filter (fun r => decide (futuresSortKey r = k))
      = rows.filter (fun r => decide (futuresSortKey r = k))) ∧
    (spot_rows_sorted srows).Pairwise
      (fun a b => keyLe (spotSortKey a) (spotSortKey b) = true) ∧
    (spot_rows_sorted srows).Perm srows ∧
    (∀ k : ℤ × ℚ, (spot_rows_sorted srows).filter (fun r => decide (spotSortKey r = k))
      = srows.filter (fun r => decide (spotSortKey r = k))) :=
  ⟨sortRows_sorted futuresSortKey rows, sortRows_perm futuresSortKey rows,
    sortRows_stable futuresSortKey rows,
    sortRows_sorted spotSortKey srows, sortRows_perm spotSortKey srows,
    sortRows_stable spotSortKey srows⟩

/-- C6: one instrument failing with an exception contributes nothing and
leaves every other instrument untouched: the batch output with the failing
symbol present equals the batch output with it absent; if every symbol
fails the report is empty; and an empty symbol list (what the symbol
fetcher returns after total supplier failure) gives an empty report. -/
theorem batch_isolation (Row : Type) (step : String → Except String (List Row))
    (pre post syms : List String) (s e : String) :
    (step s = Except.error e →
      mainRows step (pre ++ s :: post) = mainRows step (pre ++ post)) ∧
    ((∀ t ∈ syms, ∃ er, step t = Except.error er) → mainRows step syms = []) ∧
    mainRows step ([] : List String) = [] := by
  refine ⟨?_, ?_, rfl⟩
  · intro h
    have hbody : runBody step s = [] := by
      simp [runBody, h]
    simp [mainRows, hbody]
  · intro h
    induction syms with
    | nil => rfl
    | cons t ts ih =>
      obtain ⟨er, her⟩ := h t (List.mem_cons_self t ts)
      have hbody : runBody step t = [] := by
        simp [runBody, her]
      have ht := ih (fun x hx => h x (List.mem_cons_of_mem _ hx))
      simp only [mainRows] at ht ⊢
      simp [hbody, ht]

/-- Witness for C6: with the concrete step where only the symbol BAD
fails, the report over A, BAD, B equals the report over A, B, and a batch
where every symbol is BAD is empty. -/
theorem batch_isolation_witness :
    demoStep "BAD" = Except.error "boom" ∧
    mainRows demoStep (["A"] ++ "BAD" :: ["B"]) = mainRows demoStep (["A"] ++ ["B"]) ∧
    mainRows demoStep ["BAD", "BAD"] = [] := by
  refine ⟨rfl, ?_, ?_⟩
  · exact (batch_isolation String demoStep ["A"] ["B"] [] "BAD" "boom").1 rfl
  · exact (batch_isolation String demoStep [] [] ["BAD", "BAD"] "BAD" "boom").2.1
      (fun t ht => by
        rcases List.mem_cons.mp ht with h | h
        · exact ⟨"boom", by rw [h]; rfl⟩
        · rcases List.mem_cons.mp h with h2 | h2
          · exact ⟨"boom", by rw [h2]; rfl⟩
          · exact absurd h2 (List.not_mem_nil t))

/-- C2 counterexample: on a one-bar candle series (shorter than 60 bars)
compute_indicators does not return a snapshot with every indicator field
present and undefined: the ema9 column is absent from the returned frame
altogether, so fields ARE omitted from the record, contradicting the claim. -/
theorem compute_indicators_short_series_counterexample :
    shortDF.close.length < 60 ∧ (compute_indicators trivLib shortDF).ema9 = none := by
  constructor
  · norm_num [shortDF]
  · rfl

/-- C2 (amended): for every candle series shorter than 60 bars,
compute_indicators returns the input frame unchanged, adding no indicator
columns at all (fields are omitted rather than present-as-NaN); reading the
last row of such a raw frame with the get-based classifier of
main_futures.py yields NEUTRAL (the bracket-access classifier of
main-futures.py would instead raise a KeyError, which main catches and
turns into skipping the instrument). -/
theorem compute_indicators_short_series (lib : TaLib) (df : DataFrame)
    (fr oi : Option ℚ) (hlen : df.close.length < 60) :
    compute_indicators lib df = df ∧
    (df.ema9 = none →
      evaluate_signal (lastRowOf (compute_indicators lib df)) fr oi = "-") := by
  have heq : compute_indicators lib df = df := by
    unfold compute_indicators
    rw [if_pos hlen]
  refine ⟨heq, ?_⟩
  intro h9
  rw [heq]
  have hlast : (lastRowOf df).ema9 = none := by
    simp [lastRowOf, colLast, h9]
  simp [evaluate_signal, hlast]

/-- Witness for C2 at the concrete one-bar frame. -/
theorem compute_indicators_short_series_witness :
    compute_indicators trivLib shortDF = shortDF ∧
    evaluate_signal (lastRowOf (compute_indicators trivLib shortDF)) none none = "-" :=
  ⟨(compute_indicators_short_series trivLib shortDF none none (by norm_num [shortDF])).1,
   (compute_indicators_short_series trivLib shortDF none none (by norm_num [shortDF])).2 rfl⟩

/-- The score component of one rule step. -/
theorem addRule_fst (c : Bool) (w : ℤ) (name : String) (p : ℤ × List String) :
    (addRule c w name p).1 = p.1 + (if c then w else 0) := by
  cases c <;> simp [addRule]

/-- The badge component of one rule step. -/
theorem addRule_snd (c : Bool) (w : ℤ) (name : String) (p : ℤ × List String) :
    (addRule c w name p).2 = p.2 ++ (if c then [name] else []) := by
  cases c <;> simp [addRule]

/-- A rule step with a nonnegative weight keeps the score nonnegative. -/
theorem addRule_fst_nonneg {c : Bool} {w : ℤ} {name : String} {p : ℤ × List String}
    (hw : 0 ≤ w) (hp : 0 ≤ p.1) : 0 ≤ (addRule c w name p).1 := by
  cases c
  · simpa [addRule] using hp
  · simpa [addRule] using add_nonneg hp hw

/-- Appending a conditional singleton preserves being a sublist of the list
extended by that element. -/
theorem sublist_append_rule {α : Type} (c : Bool) (a : α) {l r : List α}
    (h : l.Sublist r) : (l ++ (if c then [a] else [])).Sublist (r ++ [a]) := by
  cases c
  · simpa using h.trans (List.sublist_append_left r [a])
  · simpa using h.append (List.Sublist.refl [a])

/-- Three conditional singletons in order form a sublist of the three names. -/
theorem sublist_three {α : Type} (c1 c2 c3 : Bool) (a b c : α) :
    (((if c1 then [a] else []) ++ (if c2 then [b] else []))
      ++ (if c3 then [c] else [])).Sublist [a, b, c] := by
  have h1 := sublist_append_rule c1 a (List.Sublist.refl ([] : List α))
  have h2 := sublist_append_rule c2 b h1
  have h3 := sublist_append_rule c3 c h2
  simpa using h3

/-- Four conditional singletons in order form a sublist of the four names. -/
theorem sublist_four {α : Type} (c1 c2 c3 c4 : Bool) (a b c d : α) :
    ((((if c1 then [a] else []) ++ (if c2 then [b] else []))
      ++ (if c3 then [c] else [])) ++ (if c4 then [d] else [])).Sublist [a, b, c, d] := by
  have h1 := sublist_append_rule c1 a (List.Sublist.refl ([] : List α))
  have h2 := sublist_append_rule c2 b h1
  have h3 := sublist_append_rule c3 c h2
  have h4 := sublist_append_rule c4 d h3
  simpa using h4

/-- C7: compute_score_and_badges is deterministic (a pure function of the
row and side, equal to itself on a rerun), its score is a nonnegative
integer, and its badge string is assembled from the strong badge list
followed by the moderate badge list, each tier an in-order selection of the
rule names in evaluation order (strong rules weigh 2 or more, moderate
rules weigh 1). -/
theorem compute_score_and_badges_deterministic (last : SpotRow) (side : String) :
    compute_score_and_badges last side = compute_score_and_badges last side ∧
    0 ≤ (compute_score_and_badges last side).1 ∧
    ∃ strong moderate : List String,
      score_parts last side = ((compute_score_and_badges last side).1, strong, moderate) ∧
      (compute_score_and_badges last side).2 = renderBadges strong moderate ∧
      strong.Sublist (if side = "LONG"
        then ["Golden Cross", "OBV ↑", "Sıkışma (BB+ATR)"]
        else ["Death Cross", "OBV ↓", "Sıkışma (BB+ATR)"]) ∧
      moderate.Sublist (if side = "LONG"
        then ["MACD Up", "RSI Zone", "CMF+", "Volume Spike"]
        else if side = "SHORT"
        then ["MACD Down", "RSI Zone", "CMF-", "Volume Spike"]
        else ["Volume Spike"]) := by
  refine ⟨rfl, ?_, (score_parts last side).2.1, (score_parts last side).2.2,
    rfl, rfl, ?_, ?_⟩
  · show 0 ≤ (score_parts last side).1
    simp only [score_parts]
    apply addRule_fst_nonneg (by norm_num)
    apply addRule_fst_nonneg (by norm_num)
    apply addRule_fst_nonneg (by norm_num)
    apply addRule_fst_nonneg (by norm_num)
    apply addRule_fst_nonneg (by norm_num)
    apply addRule_fst_nonneg (by norm_num)
    apply addRule_fst_nonneg (by norm_num)
    apply addRule_fst_nonneg (by norm_num)
    split
    · apply addRule_fst_nonneg (by norm_num)
      apply addRule_fst_nonneg (by norm_num)
      norm_num
    · apply addRule_fst_nonneg (by norm_num)
      apply addRule_fst_nonneg (by norm_num)
      norm_num
  · show ((score_parts last side).2.1).Sublist _
    by_cases hside : side = "LONG"
    · subst hside
      rw [if_pos rfl]
      simp only [score_parts, addRule_snd, eq_self_iff_true, if_true]
      simpa using sublist_three (fgt last.ema50 last.ema200)
        (fgt last.obv_slope (some 0))
        (flt last.bb_width (some 0.06) && flt last.atr_pct (some 3))
        "Golden Cross" "OBV ↑" "Sıkışma (BB+ATR)"
    · rw [if_neg hside]
      simp only [score_parts, addRule_snd, if_neg hside]
      simpa using sublist_three (flt last.ema50 last.ema200)
        (flt last.obv_slope (some 0))
        (flt last.bb_width (some 0.06) && flt last.atr_pct (some 3))
        "Death Cross" "OBV ↓" "Sıkışma (BB+ATR)"
  · show ((score_parts last side).2.2).Sublist _
    by_cases hL : side = "LONG"
    · subst hL
      rw [if_pos rfl]
      have hne : ¬("LONG" : String) = "SHORT" := by decide
      simp only [score_parts, addRule_snd, eq_self_iff_true, if_true,
        decide_eq_false hne, Bool.false_and, if_false]
      simpa using sublist_four
        (decide (("LONG" : String) = "LONG") && fgt last.macd_line last.macd_signal)
        (decide (("LONG" : String) = "LONG") && flt (some 45) last.rsi && flt last.rsi (some 60))
        (decide (("LONG" : String) = "LONG") && fgt last.cmf (some 0))
        (fgt (some last.volume) (fmul (pyOr last.vol_sma20 1) 1.3))
        "MACD Up" "RSI Zone" "CMF+" "Volume Spike"
    · by_cases hS : side = "SHORT"
      · subst hS
        rw [if_neg (by decide), if_pos rfl]
        have hne : ¬("SHORT" : String) = "LONG" := by decide
        simp only [score_parts, addRule_snd, eq_self_iff_true, if_true, if_neg hne,
          decide_eq_false hne, Bool.false_and, if_false]
        simpa using sublist_four
          (decide (("SHORT" : String) = "SHORT") && flt last.macd_line last.macd_signal)
          (decide (("SHORT" : String) = "SHORT") && flt (some 40) last.rsi && flt last.rsi (some 55))
          (decide (("SHORT" : String) = "SHORT") && flt last.cmf (some 0))
          (fgt (some last.volume) (fmul (pyOr last.vol_sma20 1) 1.3))
          "MACD Down" "RSI Zone" "CMF-" "Volume Spike"
      · rw [if_neg hL, if_neg hS]
        simp only [score_parts, addRule_snd, if_neg hL, decide_eq_false hL,
          decide_eq_false hS, Bool.false_and, if_false]
        have h := sublist_append_rule
          (fgt (some last.volume) (fmul (pyOr last.vol_sma20 1) 1.3))
          "Volume Spike" (List.Sublist.refl ([] : List String))
        simp only [List.nil_append] at h
        simp only [List.nil_append]
        exact h

/-- C8: the risk/reward ratio of calc_levels equals the target-side
percentage move divided by the stop-side percentage move and is undefined
whenever the stop-side percentage move is zero or negative (so the division
is never performed on a zero denominator); moreover, for a positive entry
price and a defined positive ATR the stop-side move is strictly positive
and the ratio is the defined quotient. -/
theorem calc_levels_rr (last : SpotRow) (side : String) (hclose : 0 < last.close) :
    ((calc_levels last side).2.2.2.1 = none → (calc_levels last side).2.2.2.2.2 = none) ∧
    (∀ sp tpq : ℚ, (calc_levels last side).2.2.2.1 = some sp →
      (calc_levels last side).2.2.2.2.1 = some tpq →
      (calc_levels last side).2.2.2.2.2 = if 0 < sp then some (tpq / sp) else none) ∧
    (∀ a : ℚ, last.atr14 = some a → 0 < a →
      ∃ sp tpq : ℚ, (calc_levels last side).2.2.2.1 = some sp ∧ 0 < sp ∧
        (calc_levels last side).2.2.2.2.1 = some tpq ∧
        (calc_levels last side).2.2.2.2.2 = some (tpq / sp)) := by
  rcases hatr : last.atr14 with _ | a
  · refine ⟨?_, ?_, ?_⟩
    · intro _
      simp [calc_levels, hatr]
    · intro sp tpq hsp htp
      simp [calc_levels, hatr] at hsp
    · intro a ha hpos
      exact absurd ha (by simp)
  · by_cases hle : a ≤ 0
    · refine ⟨?_, ?_, ?_⟩
      · intro _
        simp [calc_levels, hatr, hle]
      · intro sp tpq hsp htp
        simp [calc_levels, hatr, hle] at hsp
      · intro b hb hpos
        have hab : a = b := by
          simpa using hb
        exact absurd hpos (by rw [← hab]; exact not_lt.mpr hle)
    · by_cases hside : side = "LONG"
      · have hpos : 0 < (last.close - (last.close - ATR_STOP_MULT * a)) / last.close * 100 := by
          have h1 : last.close - (last.close - ATR_STOP_MULT * a) = ATR_STOP_MULT * a := by
            ring
          rw [h1]
          have ha : 0 < a := not_le.mp hle
          have hm : (0 : ℚ) < ATR_STOP_MULT := by norm_num [ATR_STOP_MULT]
          positivity
        refine ⟨?_, ?_, ?_⟩
        · intro hnone
          simp [calc_levels, hatr, hle, hside] at hnone
        · intro sp tpq hsp htp
          simp only [calc_levels, hatr, hle, hside, if_false, if_true,
            eq_self_iff_true, Option.some.injEq] at hsp htp ⊢
          rw [← hsp, ← htp]
        · intro b hb hbpos
          refine ⟨(last.close - (last.close - ATR_STOP_MULT * a)) / last.close * 100,
            (last.close + ATR_TP_MULT * a - last.close) / last.close * 100, ?_, hpos, ?_, ?_⟩
          · simp [calc_levels, hatr, hle, hside]
          · simp [calc_levels, hatr, hle, hside]
          · simp only [calc_levels, hatr, hle, hside, if_false, if_true, eq_self_iff_true]
            rw [if_pos hpos]
      · have hpos : 0 < (last.close + ATR_STOP_MULT * a - last.close) / last.close * 100 := by
          have h1 : last.close + ATR_STOP_MULT * a - last.close = ATR_STOP_MULT * a := by
            ring
          rw [h1]
          have ha : 0 < a := not_le.mp hle
          have hm : (0 : ℚ) < ATR_STOP_MULT := by norm_num [ATR_STOP_MULT]
          positivity
        refine ⟨?_, ?_, ?_⟩
        · intro hnone
          simp [calc_levels, hatr, hle, hside] at hnone
        · intro sp tpq hsp htp
          simp only [calc_levels, hatr, hle, hside, if_false, Option.some.injEq] at hsp htp ⊢
          rw [← hsp, ← htp]
        · intro b hb hbpos
          refine ⟨(last.close + ATR_STOP_MULT * a - last.close) / last.close * 100,
            (last.close - (last.close - ATR_TP_MULT * a)) / last.close * 100, ?_, hpos, ?_, ?_⟩
          · simp [calc_levels, hatr, hle, hside]
          · simp [calc_levels, hatr, hle, hside]
          · simp only [calc_levels, hatr, hle, hside, if_false]
            rw [if_pos hpos]

/-- Witness for C8: the demo row with close 100 and ATR 2 on the LONG side
has a positive stop-side move and a defined quotient risk/reward ratio. -/
theorem calc_levels_rr_witness :
    ∃ sp tpq : ℚ, (calc_levels demoSpotRow "LONG").2.2.2.1 = some sp ∧ 0 < sp ∧
      (calc_levels demoSpotRow "LONG").2.2.2.2.1 = some tpq ∧
      (calc_levels demoSpotRow "LONG").2.2.2.2.2 = some (tpq / sp) :=
  (calc_levels_rr demoSpotRow "LONG" (by norm_num [demoSpotRow])).2.2 2 rfl (by norm_num)

/-- C9 counterexample: a report row built by main for an instrument whose
funding rate was missing does not show the placeholder dash in the funding
column: main substitutes 0.0 for the missing value and generate_html_report
formats it with a five-decimal format spec, so the rendered cell is
0.00000, not the dash. -/
theorem missing_funding_not_dash :
    (generate_html_report_row
      (mkFutRow "BTCUSDT" "-" 100 none none 100 none none 50 20 0)).get? 6
      = some "0.00000" ∧ ("0.00000" : String) ≠ "-" := by
  constructor
  · have hfd : fixedDecimal 0 5 = "0.00000" := by
      unfold fixedDecimal
      rw [show round ((0 : ℚ) * (10 : ℚ) ^ 5) = 0 by norm_num]
      decide
    have hfr : (mkFutRow "BTCUSDT" "-" 100 none none 100 none none 50 20 0).funding_rate
        = 0 := rfl
    simp [generate_html_report_row, hfr, hfd]
  · decide

/-- C9 (amended): in the rendered table row, the stop and target columns
(the fields that go through fmt) show the placeholder dash exactly when the
value is missing and the fixed-precision rendering of the value otherwise;
but a missing funding rate or OI change is replaced by 0.0 when the report
row is built, so those columns render 0.00000 and 0.00 rather than a dash
(and are formatted without any None check). -/
theorem generate_html_report_row_formats (r : FutOutRow) (sym sig : String)
    (e lp rsi adx mh : ℚ) (st tg : Option ℚ) :
    (r.stop = none → (generate_html_report_row r).get? 3 = some "-") ∧
    (∀ v, r.stop = some v →
      (generate_html_report_row r).get? 3 = some (fixedDecimal v 6)) ∧
    (r.target = none → (generate_html_report_row r).get? 4 = some "-") ∧
    (∀ v, r.target = some v →
      (generate_html_report_row r).get? 4 = some (fixedDecimal v 6)) ∧
    ((mkFutRow sym sig e st tg lp none none rsi adx mh).funding_rate = 0 ∧
      (generate_html_report_row (mkFutRow sym sig e st tg lp none none rsi adx mh)).get? 6
        = some (fixedDecimal 0 5)) ∧
    fixedDecimal 0 5 = "0.00000" := by
  refine ⟨?_, ?_, ?_, ?_, ⟨rfl, ?_⟩, ?_⟩
  · intro h
    simp [generate_html_report_row, fmt, h]
  · intro v h
    simp [generate_html_report_row, fmt, h]
  · intro h
    simp [generate_html_report_row, fmt, h]
  · intro v h
    simp [generate_html_report_row, fmt, h]
  · have hfr : (mkFutRow sym sig e st tg lp none none rsi adx mh).funding_rate = 0 := rfl
    simp [generate_html_report_row, hfr]
  · unfold fixedDecimal
    rw [show round ((0 : ℚ) * (10 : ℚ) ^ 5) = 0 by norm_num]
    decide

/-- Witness for C9 at a concrete row with missing stop and target. -/
theorem generate_html_report_row_formats_witness :
    (generate_html_report_row
      (mkFutRow "ETHUSDT" "-" 5 none none 5 none none 1 2 3)).get? 3 = some "-" :=
  (generate_html_report_row_formats
    (mkFutRow "ETHUSDT" "-" 5 none none 5 none none 1 2 3)
    "ETHUSDT" "-" 5 5 1 2 3 none none).1 rfl

end BinanceDaily
